import Mathlib

/-!
# Verification of the FinBoard API-request governor

Shallow embedding of the request governor (`IndianStockAPI`) of the
FinBoard repository: the cache / in-flight dedup / FIFO queue / backoff
layer in the throttled client variant (referred to below as the *governor
variant*, `src/unnamed/part_001`) and the historical-data normalizer of
the plain client variant (`src/lib/indian-api.ts`, the *lib variant*).

JavaScript runtime values that flow through the code (parsed JSON bodies,
`undefined` produced by missing-property access) are modelled by `JsVal`;
numbers produced by `Number` / `parseFloat` coercion, which may be NaN,
are modelled by `JsNum`.  Stateful members of the class are collected in
`GovState`; `Map` fields are association lists with `Map.set` semantics
(replace in place, keys stay unique).  Time is an explicit `Nat`
parameter standing for `Date.now()` (milliseconds).
-/

/-- JavaScript runtime values as seen by the client code: parsed JSON
plus `undefined` (the result of accessing an absent property). -/
inductive JsVal : Type where
  | undef
  | null
  | bool (b : Bool)
  | num (q : ℚ)
  | str (s : String)
  | arr (xs : List JsVal)
  | obj (fields : List (String × JsVal))
deriving Repr

/-- A JavaScript number: either a (finite) rational or NaN.  Results of
`Number(...)` / `parseFloat(...)` coercions in the source. -/
inductive JsNum : Type where
  | num (q : ℚ)
  | nan
deriving Repr, DecidableEq

/-- Whether a `JsNum` is NaN. -/
def JsNum.isNaN : JsNum → Bool
  | .nan => true
  | .num _ => false

/-- JavaScript truthiness: `undefined`, `null`, `false`, `0` and `""` are
falsy; every other value (arrays and objects always) is truthy. -/
def jsTruthy : JsVal → Bool
  | .undef => false
  | .null => false
  | .bool b => b
  | .num q => q != 0
  | .str s => s ≠ ""
  | .arr _ => true
  | .obj _ => true

/-- JavaScript `x || y`: `x` if truthy, else `y`. -/
def jsOr (x y : JsVal) : JsVal := if jsTruthy x then x else y

/-- First value bound to `k` in an association list (JS `Map.get`:
`none` models `undefined`). -/
def assocLookup {α : Type} (l : List (String × α)) (k : String) : Option α :=
  match l with
  | [] => none
  | (k', v) :: rest => if k' = k then some v else assocLookup rest k

/-- JS `Map.set`: replace the binding for `k` in place if present,
otherwise append. -/
def assocSet {α : Type} (l : List (String × α)) (k : String) (v : α) :
    List (String × α) :=
  match l with
  | [] => [(k, v)]
  | (k', v') :: rest =>
      if k' = k then (k', v) :: rest else (k', v') :: assocSet rest k v

/-- JS `Map.delete`: remove the binding for `k`. -/
def assocDelete {α : Type} (l : List (String × α)) (k : String) :
    List (String × α) :=
  match l with
  | [] => []
  | (k', v') :: rest =>
      if k' = k then rest else (k', v') :: assocDelete rest k

/- ### String → number coercions -/

/-- Digits of a character list interpreted in base 10 (accumulator form),
used by the decimal parsers.  Characters are assumed to be digits. -/
def digitsVal (acc : Nat) : List Char → Nat
  | [] => acc
  | c :: rest => digitsVal (acc * 10 + (c.toNat - '0'.toNat)) rest

/-- Split a character list into its leading run of decimal digits and the
rest. -/
def spanDigits : List Char → List Char × List Char
  | [] => ([], [])
  | c :: rest =>
      if c.isDigit then
        let (ds, r) := spanDigits rest
        (c :: ds, r)
      else ([], c :: rest)

/-- The rational `[sign] d₁…dₙ.f₁…fₘ` denotes: all digits over `10^m`,
negated when the sign was `-`.  Built with `mkRat` so that concrete
values reduce. -/
def decimalVal (neg : Bool) (ints fracs : List Char) : ℚ :=
  let n : Int := Int.ofNat (digitsVal 0 (ints ++ fracs))
  mkRat (if neg then -n else n) (10 ^ fracs.length)

/-- Parse an optional sign followed by `digits [. digits]`, returning the
parsed value and the unconsumed rest; `none` when no digit was consumed
(matching what both `Number("…")` and `parseFloat("…")` reject).
Exponents and hex forms, which never occur in the repository's data
paths, are not modelled. -/
def parseSignedDecimal (cs : List Char) : Option (ℚ × List Char) :=
  let (neg, cs₁) : Bool × List Char :=
    match cs with
    | '-' :: r => (true, r)
    | '+' :: r => (false, r)
    | _ => (false, cs)
  let (ints, cs₂) := spanDigits cs₁
  match cs₂ with
  | '.' :: r =>
      let (fracs, cs₃) := spanDigits r
      if ints.isEmpty && fracs.isEmpty then none
      else some (decimalVal neg ints fracs, cs₃)
  | _ =>
      if ints.isEmpty then none
      else some (decimalVal neg ints [], cs₂)

/-- Strip leading and trailing whitespace (structural form of
`String.trim`, matching the trimming `Number("…")` performs). -/
def jsTrimChars (cs : List Char) : List Char :=
  ((cs.dropWhile Char.isWhitespace).reverse.dropWhile Char.isWhitespace).reverse

/-- JS `Number(s)` on a string: trim; empty string is `0`; otherwise the
whole remainder must be a decimal number, else NaN. -/
def jsNumberOfString (s : String) : JsNum :=
  match jsTrimChars s.toList with
  | [] => .num 0
  | t =>
    match parseSignedDecimal t with
    | some (q, []) => .num q
    | _ => .nan

/-- JS `parseFloat(s)` on a string: skip leading whitespace, parse the
longest numeric prefix; NaN when no prefix parses (so also on `""`). -/
def parseFloatOfString (s : String) : JsNum :=
  match parseSignedDecimal (s.toList.dropWhile Char.isWhitespace) with
  | some (q, _) => .num q
  | none => .nan

/-- JS `Number(x)` (`ToNumber`): `undefined ↦ NaN`, `null ↦ 0`, booleans
to 0/1, strings via `jsNumberOfString`.  Arrays convert through their
joined string form; the repository only ever reaches the empty and
singleton cases, modelled directly (`[] ↦ 0`, `[x] ↦ Number x`), other
arrays and objects give NaN. -/
def jsToNumber : JsVal → JsNum
  | .undef => .nan
  | .null => .num 0
  | .bool b => .num (if b then 1 else 0)
  | .num q => .num q
  | .str s => jsNumberOfString s
  | .arr [] => .num 0
  | .arr [x] => jsToNumber x
  | .arr _ => .nan
  | .obj _ => .nan

/-- JS `parseFloat(x)`: the argument is first converted to a string;
numbers pass through, strings are prefix-parsed, and the remaining shapes
(`null` → `"null"`, `undefined` → `"undefined"`, booleans, objects) all
stringify to non-numeric text, hence NaN.  Arrays, which the repository
never feeds to `parseFloat`, are also NaN here. -/
def jsParseFloat : JsVal → JsNum
  | .num q => .num q
  | .str s => parseFloatOfString s
  | _ => .nan

/-- JS `parseInt(x)` (radix-free form as used in the source): stringify,
then parse the longest leading `[sign] digits` prefix; NaN otherwise. -/
def jsParseInt : JsVal → JsNum
  | .num q => .num (Rat.ofInt (q.num.tdiv q.den))
  | .str s =>
      let cs := s.toList.dropWhile Char.isWhitespace
      let (neg, cs₁) : Bool × List Char :=
        match cs with
        | '-' :: r => (true, r)
        | '+' :: r => (false, r)
        | _ => (false, cs)
      let (ints, _) := spanDigits cs₁
      if ints.isEmpty then .nan
      else
        let n : Int := Int.ofNat (digitsVal 0 ints)
        .num (Rat.ofInt (if neg then -n else n))
  | _ => .nan

/-- Evaluation of `jn || 0` on a JS number: NaN and 0 are falsy, so both map to 0
(the `parseFloat(...) || 0` idiom of the lib variant). -/
def jsNumOr0 (jn : JsNum) : JsNum :=
  match jn with
  | .nan => .num 0
  | .num q => if q = 0 then .num 0 else .num q

/- ### `URLSearchParams` serialization and the cache key -/

/-- UTF-8 bytes of a character, as plain naturals. -/
def utf8Bytes (c : Char) : List Nat :=
  let n := c.toNat
  if n < 0x80 then [n]
  else if n < 0x800 then [0xC0 + n / 64, 0x80 + n % 64]
  else if n < 0x10000 then
    [0xE0 + n / 4096, 0x80 + n / 64 % 64, 0x80 + n % 64]
  else
    [0xF0 + n / 262144, 0x80 + n / 4096 % 64, 0x80 + n / 64 % 64,
     0x80 + n % 64]

/-- Upper-case hex digit of a value below 16. -/
def hexDigit (n : Nat) : Char :=
  if n < 10 then Char.ofNat ('0'.toNat + n)
  else Char.ofNat ('A'.toNat + (n - 10))

/-- Percent-encoding of one byte: `%XX`. -/
def percentByte (n : Nat) : String :=
  String.mk ['%', hexDigit (n / 16), hexDigit (n % 16)]

/-- Characters `application/x-www-form-urlencoded` leaves unescaped:
ASCII alphanumerics and `*`, `-`, `.`, `_`. -/
def formUnreserved (c : Char) : Bool :=
  c.isAlphanum || c = '*' || c = '-' || c = '.' || c = '_'

/-- Serialize one string in `application/x-www-form-urlencoded` form
(space becomes `+`, unreserved characters pass through, everything else
is percent-encoded bytewise), as `URLSearchParams.toString` does. -/
def formEncode (s : String) : String :=
  s.toList.foldl
    (fun acc c =>
      if c = ' ' then acc ++ "+"
      else if formUnreserved c then acc.push c
      else acc ++ String.join ((utf8Bytes c).map percentByte))
    ""

/-- Serialization `new URLSearchParams(params).toString()`: `k=v` pairs joined by `&`,
in the order the pairs occur in the record — `URLSearchParams` does NOT
sort them. -/
def urlSearchParamsToString (ps : List (String × String)) : String :=
  String.intercalate "&"
    (ps.map fun (k, v) => formEncode k ++ "=" ++ formEncode v)

/-- The cache / dedup key of `fetchWithCache`:
`` `${endpoint}?${new URLSearchParams(params).toString()}` ``. -/
def cacheKey (endpoint : String) (params : List (String × String)) : String :=
  endpoint ++ "?" ++ urlSearchParamsToString params

/- ### Governor state (the mutable members of `IndianStockAPI`) -/

/-- Source constant `CACHE_DURATION = 300_000` (5 minutes), in ms. -/
def CACHE_DURATION : Nat := 300000

/-- Source constant `MIN_REQUEST_INTERVAL = 2000` (2 s between dispatches), in ms. -/
def MIN_REQUEST_INTERVAL : Nat := 2000

/-- The floor retry delay: `retryDelay = 5000`. -/
def RETRY_FLOOR : Nat := 5000

/-- The backoff ceiling: `Math.min(retryDelay * 2, 60000)`. -/
def RETRY_CEILING : Nat := 60000

/-- One entry of `requestQueue`.  In the source the queue holds thunks;
here an item records the request identity the thunk closed over: `rid`
identifies the caller's promise (allocated at enqueue time) and `key`
is the cache key the thunk captured. -/
structure QueueItem : Type where
  rid : Nat
  endpoint : String
  params : List (String × String)
  key : String
deriving Repr

/-- The mutable members of `IndianStockAPI`.  `cache` maps a key to
`{ data, timestamp }`; `pendingRequests` maps a key to the identifier of
the shared in-flight promise; `nextRid` allocates promise identifiers.
`isProcessingQueue` needs no field: the guard only prevents re-entrant
drains and `processQueue` below models one complete drain. -/
structure GovState : Type where
  cache : List (String × (JsVal × Nat)) := []
  requestQueue : List QueueItem := []
  lastRequestTime : Nat := 0
  pendingRequests : List (String × Nat) := []
  rateLimitedUntil : Nat := 0
  retryDelay : Nat := RETRY_FLOOR
  nextRid : Nat := 0

/-- The freshly constructed governor state — written out to keep the
initial field values explicit. -/
def GovState.init : GovState := {}

/-- The cache lookup of `fetchWithCache`: the stored data when an entry
for `key` exists and `Date.now() - cached.timestamp < CACHE_DURATION`
(truncated `Nat` subtraction agrees with JS here: a negative difference
is also below the duration). -/
def cacheGet (s : GovState) (key : String) (now : Nat) : Option JsVal :=
  match assocLookup s.cache key with
  | some (d, t) => if now - t < CACHE_DURATION then some d else none
  | none => none

/-- What a call of `fetchWithCache` returns to its caller: the cached
payload, the existing shared pending promise (by identifier), or a newly
created pending promise whose work was appended to the queue. -/
inductive FetchDecision : Type where
  | hit (data : JsVal)
  | joined (rid : Nat)
  | enqueued (rid : Nat)
deriving Repr

/-- The synchronous part of `fetchWithCache` (source lines 88–165 of the
governor variant): compute the key; on a valid cache entry return it; if
a pending request is registered for the key return that promise;
otherwise allocate a promise, push the fetch thunk onto `requestQueue`
and register the promise in `pendingRequests`.  (In the source the
`pendingRequests.set` textually follows `queueRequest`, but no other
caller can run between the two on the single JS thread, so the combined
update is atomic as observed.) -/
def fetchWithCache (s : GovState) (endpoint : String)
    (params : List (String × String)) (now : Nat) :
    FetchDecision × GovState :=
  let key := cacheKey endpoint params
  match cacheGet s key now with
  | some d => (.hit d, s)
  | none =>
    match assocLookup s.pendingRequests key with
    | some rid => (.joined rid, s)
    | none =>
      let rid := s.nextRid
      (.enqueued rid,
        { s with
            requestQueue := s.requestQueue ++ [⟨rid, endpoint, params, key⟩],
            pendingRequests := assocSet s.pendingRequests key rid,
            nextRid := rid + 1 })

/- ### The queued thunk and its completion -/

/-- Outcome of the raw network round trip a dispatched thunk performs:
a 2xx response with a parsed JSON body, a non-2xx response (with status
and body text, read before throwing), a rejection of `fetch` itself, or
a rejection of `response.json()`. -/
inductive NetResult : Type where
  | ok (body : JsVal)
  | httpError (status : Nat) (text : String)
  | transportError (msg : String)
  | jsonError (msg : String)
deriving Repr

/-- How the thunk settles: resolved from a cache entry found after the
queue wait (no network), resolved with a freshly fetched body, or
rejected with an error message. -/
inductive ThunkOutcome : Type where
  | fromCache (d : JsVal)
  | success (d : JsVal)
  | failure (msg : String)
deriving Repr

/-- The body of the thunk `fetchWithCache` enqueues (source lines
111–159), dispatched at `tDispatch` with the network completing at
`tStore`:

* re-check the cache; on a valid entry resolve with it (no network call,
  and — as in the source — **without** touching `pendingRequests`);
* on a non-2xx response delete the pending registration and throw
  `"API request failed: <status> - <text>"`;
* on success store the body in the cache at the current time and delete
  the pending registration;
* a rejection of `fetch` or of `response.json()` propagates out of the
  thunk **without** reaching either `pendingRequests.delete` call. -/
def runThunk (s : GovState) (key : String) (tDispatch : Nat)
    (net : NetResult) (tStore : Nat) : ThunkOutcome × GovState :=
  match cacheGet s key tDispatch with
  | some d => (.fromCache d, s)
  | none =>
    match net with
    | .ok body =>
        (.success body,
          { s with
              cache := assocSet s.cache key (body, tStore),
              pendingRequests := assocDelete s.pendingRequests key })
    | .httpError status text =>
        (.failure ("API request failed: " ++ toString status ++ " - " ++ text),
          { s with pendingRequests := assocDelete s.pendingRequests key })
    | .transportError msg => (.failure msg, s)
    | .jsonError msg => (.failure msg, s)

/-- How the item's caller promise settles. -/
inductive SettleResult : Type where
  | resolved (d : JsVal)
  | rejected (msg : String)
deriving Repr

/-- The wrapper `queueRequest` pushes (source lines 76–83):
`async () => { try { resolve(await request()) } catch (e) { reject(e) } }`.
The first component is how the caller's promise settles; the second is
what `await request()` yields **inside `processQueue`** — the wrapper
catches every rejection and completes normally, so that is always
`.ok ()`. -/
def queueWrapper (outcome : ThunkOutcome) :
    SettleResult × Except String Unit :=
  match outcome with
  | .fromCache d => (.resolved d, .ok ())
  | .success d => (.resolved d, .ok ())
  | .failure msg => (.rejected msg, .ok ())

/-- Substring test on character lists, structural recursion. -/
def charsContain (pat : List Char) : List Char → Bool
  | [] => pat.isEmpty
  | c :: rest => List.isPrefixOf pat (c :: rest) || charsContain pat rest

/-- JS `String.prototype.includes`: substring test (used on
`error.message?.includes('429')`). -/
def strContains (s pat : String) : Bool :=
  charsContain pat.toList s.toList

/-- The `try`/`catch` around `await request()` in `processQueue` (source
lines 54–66): on normal completion reset `retryDelay` to the floor; on a
thrown error whose message contains `"429"` set
`rateLimitedUntil = now + retryDelay` and double `retryDelay` up to the
ceiling; on any other thrown error change nothing. -/
def backoffStep (s : GovState) (r : Except String Unit) (now : Nat) :
    GovState :=
  match r with
  | .ok _ => { s with retryDelay := RETRY_FLOOR }
  | .error msg =>
      if strContains msg "429" then
        { s with
            rateLimitedUntil := now + s.retryDelay,
            retryDelay := min (s.retryDelay * 2) RETRY_CEILING }
      else s

/-- Per-item environment for a queue drain: the duration of the item's
network round trip (ms) and its raw network outcome, indexed by the
item's promise identifier. -/
def NetEnv : Type := Nat → Nat × NetResult

/-- The record a drain produces for one dispatched item: when its
execution started, when it completed, and how the caller's promise
settled. -/
structure DispatchRecord : Type where
  rid : Nat
  start : Nat
  finish : Nat
  settle : SettleResult
deriving Repr

/-- One iteration of the `while` loop of `processQueue` for a dequeued
item (source lines 35–68), entered at time `now`:

1. if `now < rateLimitedUntil`, sleep until `rateLimitedUntil`;
2. if less than `MIN_REQUEST_INTERVAL` has passed since
   `lastRequestTime`, sleep for the remainder (with `Nat` subtraction
   this lands on `lastRequestTime + MIN_REQUEST_INTERVAL` exactly as the
   JS arithmetic does);
3. execute the thunk via the wrapper, feed what `await request()`
   yielded to the backoff logic, and set `lastRequestTime = Date.now()`
   (the completion time). -/
def stepItem (env : NetEnv) (s : GovState) (now : Nat) (item : QueueItem) :
    GovState × Nat × DispatchRecord :=
  let now₁ := if now < s.rateLimitedUntil then s.rateLimitedUntil else now
  let now₂ :=
    if now₁ - s.lastRequestTime < MIN_REQUEST_INTERVAL then
      s.lastRequestTime + MIN_REQUEST_INTERVAL
    else now₁
  let dur := (env item.rid).1
  let net := (env item.rid).2
  let finish := now₂ + dur
  let thunkOut := runThunk s item.key now₂ net finish
  let wrapped := queueWrapper thunkOut.1
  let s₂ := backoffStep thunkOut.2 wrapped.2 finish
  ({ s₂ with lastRequestTime := finish }, finish,
   ⟨item.rid, now₂, finish, wrapped.1⟩)

/-- Drain a list of queue items in order, threading state and time;
returns the final state, the time the drain finished, and the dispatch
records in dispatch order. -/
def processItems (env : NetEnv) (s : GovState) (now : Nat) :
    List QueueItem → GovState × Nat × List DispatchRecord
  | [] => (s, now, [])
  | item :: rest =>
      let out := stepItem env s now item
      let outRest := processItems env out.1 out.2.1 rest
      (outRest.1, outRest.2.1, out.2.2 :: outRest.2.2)

/-- One complete drain of `processQueue` (source lines 28–72) started at
`now`: items leave from the front of `requestQueue` one at a time, each
run to full completion before the next is dequeued (the
`isProcessingQueue` guard makes concurrent drains impossible). -/
def processQueue (env : NetEnv) (s : GovState) (now : Nat) :
    GovState × Nat × List DispatchRecord :=
  processItems env { s with requestQueue := [] } now s.requestQueue

/-- Operation `clearCache` (source lines 285–292): drop all cache entries and all
in-flight registrations, clear the rate-limit lockout and reset the
retry delay to its floor.  (`requestQueue` is not touched.) -/
def clearCache (s : GovState) : GovState :=
  { s with
      cache := [],
      pendingRequests := [],
      rateLimitedUntil := 0,
      retryDelay := RETRY_FLOOR }

/- ### JS property and array access

The normalizers run inside `Except String`, whose `error` models a thrown
`TypeError` that the operation's surrounding `try`/`catch` absorbs. -/

/-- Property read on a non-nullish receiver: objects look the key up
(absent → `undefined`); `length` works on arrays and strings; any other
read on a primitive yields `undefined`. -/
def jsProp (v : JsVal) (k : String) : JsVal :=
  match v with
  | .obj fs => (assocLookup fs k).getD .undef
  | .arr xs => if k = "length" then .num xs.length else .undef
  | .str s => if k = "length" then .num s.length else .undef
  | _ => (.undef)

/-- Plain property access `v.k`: throws a `TypeError` when `v` is
`null`/`undefined`. -/
def jsGet (v : JsVal) (k : String) : Except String JsVal :=
  match v with
  | .undef => .error ("TypeError: Cannot read properties of undefined (reading '" ++ k ++ "')")
  | .null => .error ("TypeError: Cannot read properties of null (reading '" ++ k ++ "')")
  | _ => .ok (jsProp v k)

/-- Optional-chained access `v?.k`: `undefined` instead of throwing. -/
def jsGetOpt (v : JsVal) (k : String) : JsVal :=
  match v with
  | .undef => .undef
  | .null => .undef
  | _ => jsProp v k

/-- Index access `v[i]`: throws on a nullish receiver; arrays yield the
element or `undefined` past the end; strings yield one-character
strings; other primitives yield `undefined`. -/
def jsIndex (v : JsVal) (i : Nat) : Except String JsVal :=
  match v with
  | .undef => .error "TypeError: Cannot read properties of undefined (indexing)"
  | .null => .error "TypeError: Cannot read properties of null (indexing)"
  | .arr xs => .ok ((xs.get? i).getD .undef)
  | .str s =>
      .ok (match s.toList.get? i with
           | some c => .str (String.mk [c])
           | none => .undef)
  | _ => .ok (.undef)

/-- Element-wise traversal in `Except`, structural recursion (what an
array's `map`/`forEach`-with-push loop computes, stopping at the first
thrown error). -/
def exMapM (f : JsVal → Except String α) : List JsVal → Except String (List α)
  | [] => .ok []
  | x :: rest => do
      let y ← f x
      let ys ← exMapM f rest
      return y :: ys

/-- Calls `v.map(f)` / `v.forEach(f)`-with-push on a plain (non-optional)
receiver: only arrays iterate; everything else throws (`… is not a
function` / nullish access). -/
def jsMapM (v : JsVal) (f : JsVal → Except String α) :
    Except String (List α) :=
  match v with
  | .arr xs => exMapM f xs
  | _ => .error "TypeError: map is not a function"

/-- Optional-chained iteration `v?.forEach(f)` collecting the pushed
records: nullish receivers just skip; a non-array, non-nullish receiver
still throws. -/
def jsForEachOpt (v : JsVal) (f : JsVal → Except String α) :
    Except String (List α) :=
  match v with
  | .undef => .ok []
  | .null => .ok []
  | .arr xs => exMapM f xs
  | _ => .error "TypeError: forEach is not a function"

/-- Strict equality `v === "lit"` against a string literal. -/
def jsStrictEqStr (v : JsVal) (lit : String) : Bool :=
  match v with
  | .str t => t = lit
  | _ => false

/-- Helper for `v.find(p)`: first element satisfying `p` (the predicate
itself may throw), `undefined` when none does. -/
def jsFindList (p : JsVal → Except String Bool) :
    List JsVal → Except String JsVal
  | [] => .ok .undef
  | x :: rest => do
      if (← p x) then return x else jsFindList p rest

/-- Call `v.find(p)`: only arrays search; other receivers throw. -/
def jsFind (v : JsVal) (p : JsVal → Except String Bool) :
    Except String JsVal :=
  match v with
  | .arr xs => jsFindList p xs
  | _ => .error "TypeError: find is not a function"

/-- JS `x > 0` after a `.length` read: only an actual number compares
(`undefined`/NaN comparisons are false). -/
def jsGtZero (v : JsVal) : Bool :=
  match v with
  | .num q => 0 < q
  | _ => false

/-- JS `x >= 2` on a `.length` read, same convention. -/
def jsGeTwo (v : JsVal) : Bool :=
  match v with
  | .num q => 2 ≤ q
  | _ => false

/- ### Normalized record shapes

String-typed fields keep the raw `JsVal` the `||`-fallback produced (the
source performs no string conversion); numeric fields hold the `JsNum`
the `Number`/`parseFloat` coercion produced.  The source field names
`open`/`close`, keywords in Lean, appear as `openP`/`closeP`. -/

/-- One quote record (`StockData`). -/
structure StockData : Type where
  symbol : JsVal
  name : JsVal
  price : JsNum
  change : JsNum
  changePercent : JsNum
  volume : JsNum
  marketCap : JsNum
  high : JsNum
  low : JsNum
  openP : JsNum
  closeP : JsNum
deriving Repr

/-- One card record (`CardData`). -/
structure CardData : Type where
  symbol : JsVal
  name : JsVal
  value : JsNum
  change : JsNum
  changePercent : JsNum
  volume : JsNum
  type : String
deriving Repr

/-- One historical bar (`ChartData`). -/
structure ChartData : Type where
  date : JsVal
  openP : JsNum
  high : JsNum
  low : JsNum
  closeP : JsNum
  volume : JsNum
deriving Repr

/- ### The public operations (governor variant)

Each operation awaits `fetchWithCache`; the settled value of that await
arrives here as an `Except String JsVal` (an `error` is a transport
failure, a non-2xx response or a JSON-parse failure).  The `…Body`
function is the `try` block; the public function is the `try`/`catch`
wrapper that converts every rejection into `[]`. -/

/-- The `try` block of `getStockData` (governor variant, source lines
168–195). -/
def getStockDataBody (name : String) (r : Except String JsVal) :
    Except String (List StockData) := do
  let data ← r
  if ¬ jsTruthy (jsGetOpt data "currentPrice") then
    return []
  let cp ← jsGet data "currentPrice"
  let nse ← jsGet cp "NSE"
  let bse ← jsGet cp "BSE"
  let price := jsToNumber (jsOr nse (jsOr bse (.num 0)))
  let sdrd ← jsGet data "stockDetailsReusableData"
  let companyName ← jsGet data "companyName"
  let percentChange ← jsGet data "percentChange"
  let yearHigh ← jsGet data "yearHigh"
  let yearLow ← jsGet data "yearLow"
  return [{
    symbol := jsOr (jsGetOpt sdrd "tickerId") (.str name),
    name := jsOr companyName (.str name),
    price := price,
    change := jsToNumber (jsOr (jsGetOpt sdrd "change") (.num 0)),
    changePercent := jsToNumber (jsOr percentChange (.num 0)),
    volume := jsToNumber (jsOr (jsGetOpt sdrd "volume") (.num 0)),
    marketCap := .num 0,
    high := jsToNumber (jsOr yearHigh (.num 0)),
    low := jsToNumber (jsOr yearLow (.num 0)),
    openP := price,
    closeP := price }]

/-- Operation `getStockData` (governor variant): the `try` block with its `catch`
returning `[]`. -/
def getStockData (name : String) (r : Except String JsVal) :
    List StockData :=
  match getStockDataBody name r with
  | .ok l => l
  | .error _ => []

/-- One pushed card of `getTrendingStocks`: plain accesses on the array
element, `|| ''` / `|| 0` fallbacks, tagged `type`. -/
def mkTrendCard (ty : String) (s : JsVal) : Except String CardData := do
  let tid ← jsGet s "ticker_id"
  let cn ← jsGet s "company_name"
  let pr ← jsGet s "price"
  let nc ← jsGet s "net_change"
  let pc ← jsGet s "percent_change"
  let vol ← jsGet s "volume"
  return {
    symbol := jsOr tid (.str ""),
    name := jsOr cn (.str ""),
    value := jsToNumber (jsOr pr (.num 0)),
    change := jsToNumber (jsOr nc (.num 0)),
    changePercent := jsToNumber (jsOr pc (.num 0)),
    volume := jsToNumber (jsOr vol (.num 0)),
    type := ty }

/-- The `try` block of `getTrendingStocks` (governor variant, source lines
198–231): gainers then losers, each via an optional-chained `forEach`. -/
def getTrendingStocksBody (r : Except String JsVal) :
    Except String (List CardData) := do
  let data ← r
  let gainers ← jsForEachOpt
    (jsGetOpt (jsGetOpt data "trending_stocks") "top_gainers")
    (mkTrendCard "gainer")
  let losers ← jsForEachOpt
    (jsGetOpt (jsGetOpt data "trending_stocks") "top_losers")
    (mkTrendCard "loser")
  return gainers ++ losers

/-- Operation `getTrendingStocks` (governor variant). -/
def getTrendingStocks (r : Except String JsVal) : List CardData :=
  match getTrendingStocksBody r with
  | .ok l => l
  | .error _ => []

/-- The exchange argument of `getMostActiveStocks`. -/
inductive Exchange : Type where
  | NSE
  | BSE
deriving Repr, DecidableEq

/-- The endpoint `getMostActiveStocks` selects. -/
def mostActiveEndpoint : Exchange → String
  | .NSE => "/NSE_most_active"
  | .BSE => "/BSE_most_active"

/-- One mapped card of `getMostActiveStocks`. -/
def mkActiveCard (s : JsVal) : Except String CardData := do
  let tk ← jsGet s "ticker"
  let co ← jsGet s "company"
  let pr ← jsGet s "price"
  let nc ← jsGet s "net_change"
  let pc ← jsGet s "percent_change"
  let vol ← jsGet s "volume"
  return {
    symbol := jsOr tk (.str ""),
    name := jsOr co (.str ""),
    value := jsToNumber (jsOr pr (.num 0)),
    change := jsToNumber (jsOr nc (.num 0)),
    changePercent := jsToNumber (jsOr pc (.num 0)),
    volume := jsToNumber (jsOr vol (.num 0)),
    type := "active" }

/-- The `try` block of `getMostActiveStocks` (governor variant, source lines
234–252): a plain `data.map(...)`, which throws on a non-array body. -/
def getMostActiveStocksBody (r : Except String JsVal) :
    Except String (List CardData) := do
  let data ← r
  jsMapM data mkActiveCard

/-- Operation `getMostActiveStocks` (governor variant). -/
def getMostActiveStocks (r : Except String JsVal) : List CardData :=
  match getMostActiveStocksBody r with
  | .ok l => l
  | .error _ => []

/-- One mapped bar of the governor variant's `getHistoricalData`:
`{ date: v[0], open/high/low/close: Number(v[1]), volume: 0 }` — note
the bare `Number(v[1])` with no fallback and no row-length guard. -/
def mkGovBar (v : JsVal) : Except String ChartData := do
  let d0 ← jsIndex v 0
  let d1 ← jsIndex v 1
  return {
    date := d0,
    openP := jsToNumber d1,
    high := jsToNumber d1,
    low := jsToNumber d1,
    closeP := jsToNumber d1,
    volume := .num 0 }

/-- The `try` block of the governor variant's `getHistoricalData` (source
lines 255–283): bail out on `!data?.datasets?.length`, find the
`metric === 'Price'` dataset, map its rows, `?? []`, reverse. -/
def getHistoricalDataGovBody (r : Except String JsVal) :
    Except String (List ChartData) := do
  let data ← r
  if ¬ jsTruthy (jsGetOpt (jsGetOpt data "datasets") "length") then
    return []
  let ds ← jsGet data "datasets"
  let priceSet ← jsFind ds (fun d => do
    let m ← jsGet d "metric"
    return jsStrictEqStr m "Price")
  let rows ←
    match jsGetOpt priceSet "values" with
    | .undef => pure []
    | .null => pure []
    | .arr xs => exMapM mkGovBar xs
    | _ => Except.error "TypeError: map is not a function"
  return rows.reverse

/-- Operation `getHistoricalData` (governor variant).  `symbol` and `period` only
shape the request parameters, not the normalization, and are omitted. -/
def getHistoricalDataGov (r : Except String JsVal) : List ChartData :=
  match getHistoricalDataGovBody r with
  | .ok l => l
  | .error _ => []

/- ### `getHistoricalData` of the lib variant (`src/lib/indian-api.ts`,
lines 150–201) -/

/-- One bar of the lib variant's `datasets` branch, pushed only when
`value.length >= 2`; fields use `parseFloat(value[1]) || 0`. -/
def mkLibBar (v : JsVal) : Except String (Option ChartData) := do
  let len ← jsGet v "length"
  if jsGeTwo len then
    let d0 ← jsIndex v 0
    let d1 ← jsIndex v 1
    return some {
      date := d0,
      openP := jsNumOr0 (jsParseFloat d1),
      high := jsNumOr0 (jsParseFloat d1),
      low := jsNumOr0 (jsParseFloat d1),
      closeP := jsNumOr0 (jsParseFloat d1),
      volume := .num 0 }
  else
    return none

/-- One bar of the lib variant's alternative `data.data` branch. -/
def mkLibAltBar (item : JsVal) : Except String ChartData := do
  let date ← jsGet item "date"
  let ts ← jsGet item "timestamp"
  let o ← jsGet item "open"
  let h ← jsGet item "high"
  let l ← jsGet item "low"
  let c ← jsGet item "close"
  let p ← jsGet item "price"
  let vol ← jsGet item "volume"
  return {
    date := jsOr date ts,
    openP := jsParseFloat (jsOr o (jsOr p (.str "0"))),
    high := jsParseFloat (jsOr h (jsOr p (.str "0"))),
    low := jsParseFloat (jsOr l (jsOr p (.str "0"))),
    closeP := jsParseFloat (jsOr c (jsOr p (.str "0"))),
    volume := jsParseInt (jsOr vol (.str "0")) }

/-- The `try` block of the lib variant's `getHistoricalData`: the `datasets`
branch filters rows shorter than 2 out; the `data.data` branch keeps
every item; the result is reversed. -/
def getHistoricalDataLibBody (r : Except String JsVal) :
    Except String (List ChartData) := do
  let data ← r
  let ds ← jsGet data "datasets"
  let bars ←
    if jsTruthy ds && jsGtZero (jsProp ds "length") then do
      let priceSet ← jsFind ds (fun d => do
        let m ← jsGet d "metric"
        return jsStrictEqStr m "Price")
      if jsTruthy priceSet then do
        let vals ← jsGet priceSet "values"
        if jsTruthy vals then do
          let rows ←
            match vals with
            | .arr xs => exMapM mkLibBar xs
            | _ => Except.error "TypeError: forEach is not a function"
          pure (rows.filterMap id)
        else pure []
      else pure []
    else do
      let dd ← jsGet data "data"
      if jsTruthy dd && (match dd with | .arr _ => true | _ => false) then
        match dd with
        | .arr xs => exMapM mkLibAltBar xs
        | _ => pure []
      else pure []
  return bars.reverse

/-- The lib variant's `getHistoricalData`. -/
def getHistoricalDataLib (r : Except String JsVal) : List ChartData :=
  match getHistoricalDataLibBody r with
  | .ok l => l
  | .error _ => []

/- ### Helper lemmas -/

/-- Setting a key makes it the key's binding (JS `Map.set`/`Map.get`). -/
theorem assocLookup_assocSet_self {α : Type} (l : List (String × α))
    (k : String) (v : α) : assocLookup (assocSet l k v) k = some v := by
  induction l with
  | nil => simp [assocSet, assocLookup]
  | cons hd tl ih =>
      obtain ⟨k', v'⟩ := hd
      by_cases h : k' = k <;> simp [assocSet, assocLookup, h, ih]

/-- Every key of `assocSet l k v` is a key of `l` or is `k`. -/
theorem assocSet_fst_mem {α : Type} (l : List (String × α)) (k : String)
    (v : α) : ∀ x ∈ (assocSet l k v).map Prod.fst,
      x ∈ l.map Prod.fst ∨ x = k := by
  induction l with
  | nil => simp [assocSet]
  | cons hd tl ih =>
      obtain ⟨k', v'⟩ := hd
      intro x hx
      by_cases hk : k' = k
      · simp only [assocSet, if_pos hk, List.map_cons] at hx
        rcases List.mem_cons.1 hx with h | h
        · exact Or.inl (by simp [h])
        · exact Or.inl (List.mem_cons_of_mem _ h)
      · simp only [assocSet, if_neg hk, List.map_cons] at hx
        rcases List.mem_cons.1 hx with h | h
        · exact Or.inl (by simp [h])
        · rcases ih x h with h' | h'
          · exact Or.inl (List.mem_cons_of_mem _ h')
          · exact Or.inr h'

/-- Keys stay unique under JS `Map.set`. -/
theorem assocSet_keys_nodup {α : Type} (l : List (String × α))
    (k : String) (v : α) (h : (l.map Prod.fst).Nodup) :
    ((assocSet l k v).map Prod.fst).Nodup := by
  induction l with
  | nil => simp [assocSet]
  | cons hd tl ih =>
      obtain ⟨k', v'⟩ := hd
      simp only [List.map_cons, List.nodup_cons] at h
      by_cases hk : k' = k
      · simp only [assocSet, if_pos hk, List.map_cons, List.nodup_cons]
        exact h
      · simp only [assocSet, if_neg hk, List.map_cons, List.nodup_cons]
        refine ⟨?_, ih h.2⟩
        intro hmem
        rcases assocSet_fst_mem tl k v k' hmem with h' | h'
        · exact h.1 h'
        · exact hk h'

/- ### Claim C7 -/

/-- C7 counterexample: the key is NOT canonical-sorted — supplying the
same parameter pairs in a different order yields a different key, because
`URLSearchParams` serializes pairs in insertion order without sorting. -/
theorem C7_key_order_dependent :
    cacheKey "/e" [("b", "2"), ("a", "1")] ≠
      cacheKey "/e" [("a", "1"), ("b", "2")] := by decide

/-- C7 (amended): the cache/dedup key equals the endpoint name followed
by `?` and the URL-encoded query string of the parameters in the order
supplied; a fetch-capable call uses that one key for the cache lookup,
the pending registration and the enqueued item, so two calls supplying
the same pairs in the same order compute the same key. -/
theorem C7_key_supplied_order (s : GovState) (endpoint : String)
    (params : List (String × String)) (now : Nat)
    (hc : cacheGet s (cacheKey endpoint params) now = none)
    (hp : assocLookup s.pendingRequests (cacheKey endpoint params) = none) :
    cacheKey endpoint params =
      endpoint ++ "?" ++ urlSearchParamsToString params ∧
    (fetchWithCache s endpoint params now).2.requestQueue =
      s.requestQueue ++ [⟨s.nextRid, endpoint, params, cacheKey endpoint params⟩] ∧
    assocLookup (fetchWithCache s endpoint params now).2.pendingRequests
      (cacheKey endpoint params) = some s.nextRid := by
  refine ⟨rfl, ?_, ?_⟩ <;>
    simp [fetchWithCache, hc, hp, assocLookup_assocSet_self]

/-- Witness for C7 (amended) at a concrete input. -/
theorem C7_key_supplied_order_witness :
    cacheGet GovState.init (cacheKey "/stock" [("name", "TCS")]) 0 = none ∧
    cacheKey "/stock" [("name", "TCS")] =
      "/stock" ++ "?" ++ urlSearchParamsToString [("name", "TCS")] ∧
    (fetchWithCache GovState.init "/stock" [("name", "TCS")] 0).2.requestQueue =
      [⟨0, "/stock", [("name", "TCS")], cacheKey "/stock" [("name", "TCS")]⟩] ∧
    assocLookup
      (fetchWithCache GovState.init "/stock" [("name", "TCS")] 0).2.pendingRequests
      (cacheKey "/stock" [("name", "TCS")]) = some 0 := by
  have h := C7_key_supplied_order GovState.init "/stock" [("name", "TCS")] 0
    (by rfl) (by rfl)
  exact ⟨rfl, h.1, by simpa using h.2.1, h.2.2⟩

/- ### Claim C9 -/

/-- C9: `clearCache` drops every cache entry and every in-flight
registration and resets the backoff state (`rateLimitedUntil = 0`, retry
delay at its floor); consequently an immediately repeated request misses
the cache and enqueues a fresh network call. -/
theorem C9_clearCache_resets (s : GovState) (endpoint : String)
    (params : List (String × String)) (now : Nat) :
    (clearCache s).cache = [] ∧
    (clearCache s).pendingRequests = [] ∧
    (clearCache s).rateLimitedUntil = 0 ∧
    (clearCache s).retryDelay = RETRY_FLOOR ∧
    (fetchWithCache (clearCache s) endpoint params now).1 =
      .enqueued s.nextRid ∧
    (fetchWithCache (clearCache s) endpoint params now).2.requestQueue =
      s.requestQueue ++ [⟨s.nextRid, endpoint, params, cacheKey endpoint params⟩] := by
  refine ⟨rfl, rfl, rfl, rfl, ?_, ?_⟩ <;>
    simp [fetchWithCache, clearCache, cacheGet, assocLookup]

/- ### Claim C10 -/

/-- C10: a queued fetch that finds a valid cache entry for its key at the
moment it is dispatched resolves with that cached payload, changes no
state, and performs no network call (the outcome is the same for every
possible network behaviour `net`). -/
theorem C10_queued_cache_hit (s : GovState) (key : String)
    (tDispatch tStore : Nat) (net : NetResult) (d : JsVal)
    (h : cacheGet s key tDispatch = some d) :
    runThunk s key tDispatch net tStore = (.fromCache d, s) := by
  simp [runThunk, h]

/-- Witness for C10 at a concrete input. -/
theorem C10_queued_cache_hit_witness :
    cacheGet { GovState.init with cache := [("/trending?", (.num 7, 100))] }
        "/trending?" 200 = some (.num 7) ∧
    runThunk { GovState.init with cache := [("/trending?", (.num 7, 100))] }
        "/trending?" 200 (.transportError "boom") 300 =
      (.fromCache (.num 7),
        { GovState.init with cache := [("/trending?", (.num 7, 100))] }) := by
  exact ⟨rfl, C10_queued_cache_hit _ "/trending?" 200 300 (.transportError "boom")
    (.num 7) rfl⟩

/- ### Claim C2 -/

/-- C2 (code bug): after a queued fetch for `/stock?name=TCS` fails with
a thrown transport error, the thunk rethrows but its in-flight
registration is NOT removed from `pendingRequests` — the
`pendingRequests.delete` calls sit only on the non-2xx branch and after a
successful parse, so a rejection of `fetch` itself (or of
`response.json()`) skips both. -/
theorem C2_transport_error_keeps_registration :
    assocLookup
      (runThunk (fetchWithCache GovState.init "/stock" [("name", "TCS")] 0).2
        (cacheKey "/stock" [("name", "TCS")]) 1000
        (.transportError "TypeError: fetch failed") 1200).2.pendingRequests
      (cacheKey "/stock" [("name", "TCS")]) = some 0 ∧
    (runThunk (fetchWithCache GovState.init "/stock" [("name", "TCS")] 0).2
        (cacheKey "/stock" [("name", "TCS")]) 1000
        (.jsonError "SyntaxError: Unexpected token") 1200).2.pendingRequests =
      (fetchWithCache GovState.init "/stock" [("name", "TCS")] 0).2.pendingRequests := by
  exact ⟨rfl, rfl⟩

/-- Characterization: `fetchWithCache` on a valid cache entry. -/
theorem fetchWithCache_hit (s : GovState) (endpoint : String)
    (params : List (String × String)) (now : Nat) (d : JsVal)
    (hc : cacheGet s (cacheKey endpoint params) now = some d) :
    fetchWithCache s endpoint params now = (.hit d, s) := by
  simp [fetchWithCache, hc]

/-- Characterization: `fetchWithCache` on a cache miss with a pending
registration. -/
theorem fetchWithCache_joined (s : GovState) (endpoint : String)
    (params : List (String × String)) (now rid : Nat)
    (hc : cacheGet s (cacheKey endpoint params) now = none)
    (hp : assocLookup s.pendingRequests (cacheKey endpoint params) = some rid) :
    fetchWithCache s endpoint params now = (.joined rid, s) := by
  simp [fetchWithCache, hc, hp]

/-- Characterization: `fetchWithCache` on a full miss enqueues and
registers. -/
theorem fetchWithCache_enqueued (s : GovState) (endpoint : String)
    (params : List (String × String)) (now : Nat)
    (hc : cacheGet s (cacheKey endpoint params) now = none)
    (hp : assocLookup s.pendingRequests (cacheKey endpoint params) = none) :
    fetchWithCache s endpoint params now =
      (.enqueued s.nextRid,
        { s with
            requestQueue := s.requestQueue ++
              [⟨s.nextRid, endpoint, params, cacheKey endpoint params⟩],
            pendingRequests :=
              assocSet s.pendingRequests (cacheKey endpoint params) s.nextRid,
            nextRid := s.nextRid + 1 }) := by
  simp [fetchWithCache, hc, hp]

/-- The cache lookup only reads the `cache` field. -/
theorem cacheGet_ext (s s' : GovState) (h : s'.cache = s.cache)
    (k : String) (n : Nat) : cacheGet s' k n = cacheGet s k n := by
  unfold cacheGet; rw [h]

/- ### Claim C1 -/

/-- C1: at most one in-flight request exists per key.  While a request
for a key is registered pending, a further fetch-capable call computing
the same key returns exactly that shared pending promise and changes
nothing (no queue growth, hence no additional network call); and a call
that registers a fresh pending request makes any immediately following
identical call join it.  Key uniqueness in the pending map is preserved
by registration. -/
theorem C1_single_pending_shared_result :
    (∀ (s : GovState) (endpoint : String) (params : List (String × String))
        (now rid : Nat),
      cacheGet s (cacheKey endpoint params) now = none →
      assocLookup s.pendingRequests (cacheKey endpoint params) = some rid →
      fetchWithCache s endpoint params now = (.joined rid, s)) ∧
    (∀ (s : GovState) (endpoint : String) (params : List (String × String))
        (now : Nat),
      cacheGet s (cacheKey endpoint params) now = none →
      assocLookup s.pendingRequests (cacheKey endpoint params) = none →
      (fetchWithCache s endpoint params now).1 = .enqueued s.nextRid ∧
      fetchWithCache (fetchWithCache s endpoint params now).2 endpoint params now =
        (.joined s.nextRid, (fetchWithCache s endpoint params now).2)) ∧
    (∀ (s : GovState) (endpoint : String) (params : List (String × String))
        (now : Nat),
      (s.pendingRequests.map Prod.fst).Nodup →
      ((fetchWithCache s endpoint params now).2.pendingRequests.map Prod.fst).Nodup) := by
  refine ⟨fun s e ps now rid hc hp => fetchWithCache_joined s e ps now rid hc hp,
    ?_, ?_⟩
  · intro s endpoint params now hc hp
    rw [fetchWithCache_enqueued s endpoint params now hc hp]
    refine ⟨rfl, ?_⟩
    exact fetchWithCache_joined _ endpoint params now s.nextRid
      ((cacheGet_ext _ s rfl _ _).trans hc)
      (assocLookup_assocSet_self _ _ _)
  · intro s endpoint params now hnd
    cases hcg : cacheGet s (cacheKey endpoint params) now with
    | some d => rw [fetchWithCache_hit s endpoint params now d hcg]; exact hnd
    | none =>
        cases hpl : assocLookup s.pendingRequests (cacheKey endpoint params) with
        | some rid =>
            rw [fetchWithCache_joined s endpoint params now rid hcg hpl]
            exact hnd
        | none =>
            rw [fetchWithCache_enqueued s endpoint params now hcg hpl]
            exact assocSet_keys_nodup _ _ _ hnd

/-- Witness for C1 at concrete inputs: a state with a pending request
registered for `/trending?` under promise 7, and a fresh state. -/
theorem C1_single_pending_shared_result_witness :
    cacheGet { GovState.init with pendingRequests := [("/trending?", 7)] }
        (cacheKey "/trending" []) 0 = none ∧
    assocLookup ({ GovState.init with
        pendingRequests := [("/trending?", 7)] } : GovState).pendingRequests
        (cacheKey "/trending" []) = some 7 ∧
    fetchWithCache { GovState.init with pendingRequests := [("/trending?", 7)] }
        "/trending" [] 0 =
      (.joined 7, { GovState.init with pendingRequests := [("/trending?", 7)] }) ∧
    (fetchWithCache GovState.init "/trending" [] 0).1 = .enqueued 0 ∧
    fetchWithCache (fetchWithCache GovState.init "/trending" [] 0).2
        "/trending" [] 0 =
      (.joined 0, (fetchWithCache GovState.init "/trending" [] 0).2) := by
  refine ⟨rfl, rfl, ?_, ?_, ?_⟩
  · exact C1_single_pending_shared_result.1 _ "/trending" [] 0 7 rfl rfl
  · exact (C1_single_pending_shared_result.2.1 GovState.init "/trending" [] 0
      rfl rfl).1
  · exact (C1_single_pending_shared_result.2.1 GovState.init "/trending" [] 0
      rfl rfl).2

/- ### Claim C5 -/

/-- C5: a cache entry stored at `t` is returned with no state change (no
queueing, no network call) for any lookup strictly inside the validity
window; at or past the window's end the entry is treated as a miss — a
new request is enqueued when none is pending for the key — and the stale
entry itself is left in the cache untouched (lazy expiry). -/
theorem C5_cache_window (s : GovState) (endpoint : String)
    (params : List (String × String)) (d : JsVal) (t now : Nat)
    (he : assocLookup s.cache (cacheKey endpoint params) = some (d, t)) :
    (now - t < CACHE_DURATION →
      fetchWithCache s endpoint params now = (.hit d, s)) ∧
    (CACHE_DURATION ≤ now - t →
      assocLookup s.pendingRequests (cacheKey endpoint params) = none →
      (fetchWithCache s endpoint params now).1 = .enqueued s.nextRid ∧
      (fetchWithCache s endpoint params now).2.cache = s.cache) := by
  constructor
  · intro hin
    have hcg : cacheGet s (cacheKey endpoint params) now = some d := by
      simp [cacheGet, he, hin]
    simp [fetchWithCache, hcg]
  · intro hout hp
    have hcg : cacheGet s (cacheKey endpoint params) now = none := by
      simp [cacheGet, he, Nat.not_lt.2 hout]
    constructor <;> simp [fetchWithCache, hcg, hp]

/-- Witness for C5: an entry stored at `t = 1000`, looked up at
`now = 1000 + CACHE_DURATION` (the first stale instant). -/
theorem C5_cache_window_witness :
    assocLookup ({ GovState.init with
        cache := [("/trending?", (.num 7, 1000))] } : GovState).cache
      (cacheKey "/trending" []) = some (.num 7, 1000) ∧
    (fetchWithCache { GovState.init with
        cache := [("/trending?", (.num 7, 1000))] } "/trending" []
        (1000 + CACHE_DURATION)).1 = .enqueued 0 ∧
    (fetchWithCache { GovState.init with
        cache := [("/trending?", (.num 7, 1000))] } "/trending" []
        (1000 + CACHE_DURATION)).2.cache = [("/trending?", (.num 7, 1000))] := by
  have h := (C5_cache_window { GovState.init with
      cache := [("/trending?", (.num 7, 1000))] } "/trending" [] (.num 7)
      1000 (1000 + CACHE_DURATION) rfl).2 (by simp) rfl
  exact ⟨rfl, h.1, h.2⟩

/- ### Claim C3 -/

/-- A dispatched item's record carries the item's promise identifier. -/
theorem stepItem_rid (env : NetEnv) (s : GovState) (now : Nat)
    (item : QueueItem) : (stepItem env s now item).2.2.rid = item.rid := rfl

/-- The loop resumes, and `lastRequestTime` is recorded, at the item's
completion time. -/
theorem stepItem_resume (env : NetEnv) (s : GovState) (now : Nat)
    (item : QueueItem) :
    (stepItem env s now item).2.1 = (stepItem env s now item).2.2.finish ∧
    (stepItem env s now item).1.lastRequestTime =
      (stepItem env s now item).2.2.finish := by
  constructor <;> rfl

/-- A dispatch starts no earlier than `MIN_REQUEST_INTERVAL` after the
previous recorded `lastRequestTime`, and completes no earlier than it
starts. -/
theorem stepItem_start_bounds (env : NetEnv) (s : GovState) (now : Nat)
    (item : QueueItem) :
    s.lastRequestTime + MIN_REQUEST_INTERVAL ≤ (stepItem env s now item).2.2.start ∧
    (stepItem env s now item).2.2.start ≤ (stepItem env s now item).2.2.finish := by
  simp only [stepItem, MIN_REQUEST_INTERVAL]
  constructor
  · split_ifs <;> omega
  · split_ifs <;> omega

/-- Drain invariant: records appear in queue order, every dispatch starts
at least `MIN_REQUEST_INTERVAL` after the incoming `lastRequestTime` and
finishes no earlier than it starts, and consecutive records are separated
by the full completion of the earlier one and by the minimum spacing. -/
theorem processItems_fifo_spacing (env : NetEnv) :
    ∀ (items : List QueueItem) (s : GovState) (now : Nat),
      ((processItems env s now items).2.2.map (fun r => r.rid) =
        items.map (fun i => i.rid)) ∧
      (∀ r ∈ (processItems env s now items).2.2,
        s.lastRequestTime + MIN_REQUEST_INTERVAL ≤ r.start ∧
        r.start ≤ r.finish) ∧
      List.Chain' (fun a b =>
        a.finish ≤ b.start ∧ a.start + MIN_REQUEST_INTERVAL ≤ b.start)
        (processItems env s now items).2.2 := by
  intro items
  induction items with
  | nil => intro s now; simp [processItems]
  | cons item rest ih =>
      intro s now
      have hrid := stepItem_rid env s now item
      obtain ⟨hres, hlast⟩ := stepItem_resume env s now item
      obtain ⟨hge, hsf⟩ := stepItem_start_bounds env s now item
      have ihr := ih (stepItem env s now item).1 (stepItem env s now item).2.1
      simp only [processItems]
      refine ⟨?_, ?_, ?_⟩
      · simp [hrid, ihr.1]
      · intro r hr
        rcases List.mem_cons.1 hr with h | h
        · subst h; exact ⟨hge, hsf⟩
        · have hb := ihr.2.1 r h
          rw [hlast] at hb
          exact ⟨le_trans (by omega) hb.1, hb.2⟩
      · refine List.chain'_cons'.2 ⟨?_, ihr.2.2⟩
        intro y hy
        have hmem : y ∈ (processItems env (stepItem env s now item).1
            (stepItem env s now item).2.1 rest).2.2 :=
          List.mem_of_mem_head? hy
        have hb := ihr.2.1 y hmem
        rw [hlast] at hb
        constructor <;> omega

/-- C3: one complete drain of `processQueue` dispatches items in strict
FIFO enqueue order; each item runs to full completion before the next
starts (one network call in flight at a time), and successive dispatch
start times are separated by at least `MIN_REQUEST_INTERVAL` (2000 ms). -/
theorem C3_fifo_one_at_a_time_spacing (env : NetEnv) (s : GovState)
    (now : Nat) :
    ((processQueue env s now).2.2.map (fun r => r.rid) =
      s.requestQueue.map (fun i => i.rid)) ∧
    List.Chain' (fun a b =>
      a.finish ≤ b.start ∧ a.start + MIN_REQUEST_INTERVAL ≤ b.start)
      (processQueue env s now).2.2 ∧
    (∀ r ∈ (processQueue env s now).2.2, r.start ≤ r.finish) := by
  have h := processItems_fifo_spacing env s.requestQueue
    { s with requestQueue := [] } now
  exact ⟨h.1, h.2.2, fun r hr => (h.2.1 r hr).2⟩

/- ### Claim C4 -/

/-- C4 (code bug): the wrapper pushed by `queueRequest` catches the
thunk's rejection (rejecting the caller's promise) and itself completes
normally, so the `catch` in `processQueue` that implements the backoff
never runs.  Dispatching a queued request that fails with HTTP 429
leaves `rateLimitedUntil` at 0 and resets `retryDelay` to the floor —
instead of setting `rateLimitedUntil = now + retryDelay` and doubling the
delay as the claim states — while the 429 error is surfaced to the
caller. -/
theorem C4_backoff_never_engaged :
    (processQueue (fun _ => (300, .httpError 429 "quota"))
      (fetchWithCache GovState.init "/stock" [("name", "TCS")] 100000).2
      100000).1.rateLimitedUntil = 0 ∧
    (processQueue (fun _ => (300, .httpError 429 "quota"))
      (fetchWithCache GovState.init "/stock" [("name", "TCS")] 100000).2
      100000).1.retryDelay = RETRY_FLOOR ∧
    (processQueue (fun _ => (300, .httpError 429 "quota"))
      (fetchWithCache GovState.init "/stock" [("name", "TCS")] 100000).2
      100000).2.2.map (fun r => r.settle) =
      [.rejected "API request failed: 429 - quota"] := by
  exact ⟨rfl, rfl, rfl⟩

/- ### Claim C6 -/

/-- C6: the public data operations never propagate a rejection: a failed
await (transport error, non-2xx, JSON-parse failure) yields `[]`, a
normalization that throws internally (e.g. `data.map` on a non-array
body) yields `[]`, and in every case the result is the body's value or
`[]`. -/
theorem C6_operations_never_reject :
    (∀ (name msg : String), getStockData name (.error msg) = []) ∧
    (∀ msg : String, getTrendingStocks (.error msg) = []) ∧
    (∀ msg : String, getMostActiveStocks (.error msg) = []) ∧
    (∀ msg : String, getHistoricalDataGov (.error msg) = []) ∧
    getMostActiveStocks (.ok .null) = [] ∧
    (∀ (name : String) (r : Except String JsVal),
      getStockData name r = [] ∨ (getStockDataBody name r).isOk = true) ∧
    (∀ r : Except String JsVal,
      getTrendingStocks r = [] ∨ (getTrendingStocksBody r).isOk = true) ∧
    (∀ r : Except String JsVal,
      getMostActiveStocks r = [] ∨ (getMostActiveStocksBody r).isOk = true) ∧
    (∀ r : Except String JsVal,
      getHistoricalDataGov r = [] ∨ (getHistoricalDataGovBody r).isOk = true) := by
  refine ⟨fun name msg => rfl, fun msg => rfl, fun msg => rfl, fun msg => rfl,
    rfl, ?_, ?_, ?_, ?_⟩
  · intro name r
    unfold getStockData
    cases h : getStockDataBody name r with
    | ok l => exact Or.inr rfl
    | error e => exact Or.inl rfl
  · intro r
    unfold getTrendingStocks
    cases h : getTrendingStocksBody r with
    | ok l => exact Or.inr rfl
    | error e => exact Or.inl rfl
  · intro r
    unfold getMostActiveStocks
    cases h : getMostActiveStocksBody r with
    | ok l => exact Or.inr rfl
    | error e => exact Or.inl rfl
  · intro r
    unfold getHistoricalDataGov
    cases h : getHistoricalDataGovBody r with
    | ok l => exact Or.inr rfl
    | error e => exact Or.inl rfl

/- ### Claim C8 -/

/-- A provider body whose `Price` dataset holds the given rows (the shape
both variants' `getHistoricalData` consume). -/
def mkDatasets (rows : List JsVal) : JsVal :=
  .obj [("datasets", .arr [.obj [("metric", .str "Price"),
    ("values", .arr rows)]])]

/-- C8 counterexample: on a `Price` dataset holding the single
one-element row `["2024-01-01"]` the governor variant keeps the short
row (length 1, not dropped) and fills every numeric bar field with NaN
(`Number(undefined)`), and the tolerant-parse rule fails even for present
values: `Number("abc")` is NaN, not 0. -/
theorem C8_short_rows_kept_with_nan :
    (getHistoricalDataGov (.ok (mkDatasets [.arr [.str "2024-01-01"]]))).length
      = 1 ∧
    ((getHistoricalDataGov (.ok (mkDatasets [.arr [.str "2024-01-01"]]))).map
      (fun b => b.openP)).all JsNum.isNaN = true ∧
    jsToNumber (.str "abc") = .nan := by
  exact ⟨rfl, rfl, by decide⟩

/-- The bar the lib variant pushes for an array row (its fields after the
`parseFloat(value[1]) || 0` coercions). -/
def libBarOf (r : List JsVal) : ChartData :=
  { date := (r.get? 0).getD .undef,
    openP := jsNumOr0 (jsParseFloat ((r.get? 1).getD .undef)),
    high := jsNumOr0 (jsParseFloat ((r.get? 1).getD .undef)),
    low := jsNumOr0 (jsParseFloat ((r.get? 1).getD .undef)),
    closeP := jsNumOr0 (jsParseFloat ((r.get? 1).getD .undef)),
    volume := .num 0 }

/-- The bar the governor variant maps an array row to (bare
`Number(v[1])`). -/
def govBarOf (r : List JsVal) : ChartData :=
  { date := (r.get? 0).getD .undef,
    openP := jsToNumber ((r.get? 1).getD .undef),
    high := jsToNumber ((r.get? 1).getD .undef),
    low := jsToNumber ((r.get? 1).getD .undef),
    closeP := jsToNumber ((r.get? 1).getD .undef),
    volume := .num 0 }

/-- On an array row the lib variant's loop body keeps the row exactly
when it has at least two entries. -/
theorem mkLibBar_arr (r : List JsVal) :
    mkLibBar (.arr r) = .ok (if 2 ≤ r.length then some (libBarOf r) else none) := by
  have hd : mkLibBar (.arr r) =
      if jsGeTwo (.num (r.length : ℚ)) then
        (Except.ok (some (libBarOf r)) : Except String (Option ChartData))
      else .ok none := rfl
  have hgt : jsGeTwo (.num (r.length : ℚ)) = decide (2 ≤ r.length) := by
    show decide ((2 : ℚ) ≤ (r.length : ℚ)) = decide (2 ≤ r.length)
    rw [decide_eq_decide]
    exact_mod_cast Iff.rfl
  rw [hd, hgt]
  by_cases h : 2 ≤ r.length <;> simp [h]

/-- On an array row the governor variant's loop body always produces a
bar. -/
theorem mkGovBar_arr (r : List JsVal) :
    mkGovBar (.arr r) = .ok (govBarOf r) := rfl

/-- One step of the element-wise traversal. -/
theorem exMapM_cons {α : Type} (f : JsVal → Except String α) (x : JsVal)
    (xs : List JsVal) :
    exMapM f (x :: xs) =
      Except.bind (f x) (fun y =>
        Except.bind (exMapM f xs) (fun ys => Except.ok (y :: ys))) := rfl

/-- Traversal of array rows with the lib loop body. -/
theorem exMapM_mkLibBar (rows : List (List JsVal)) :
    exMapM mkLibBar (rows.map .arr) =
      .ok (rows.map fun r => if 2 ≤ r.length then some (libBarOf r) else none) := by
  induction rows with
  | nil => rfl
  | cons r rest ih =>
      rw [List.map_cons, exMapM_cons, mkLibBar_arr, ih]
      rfl

/-- Traversal of array rows with the governor loop body. -/
theorem exMapM_mkGovBar (rows : List (List JsVal)) :
    exMapM mkGovBar (rows.map .arr) = .ok (rows.map govBarOf) := by
  induction rows with
  | nil => rfl
  | cons r rest ih =>
      rw [List.map_cons, exMapM_cons, mkGovBar_arr, ih]
      rfl

/-- Counting survivors of an option-producing traversal. -/
theorem length_filterMap_ite {α β : Type} (p : α → Prop) [DecidablePred p]
    (f : α → β) (l : List α) :
    (l.filterMap (fun r => if p r then some (f r) else none)).length
      = (l.filter (fun r => p r)).length := by
  induction l with
  | nil => rfl
  | cons a l ih =>
      by_cases h : p a <;>
        simp [List.filterMap_cons, List.filter_cons, h, ih]

/-- The lib variant drops exactly the rows with fewer than 2 entries. -/
theorem libHistorical_drops_short (rows : List (List JsVal)) :
    (getHistoricalDataLib (.ok (mkDatasets (rows.map .arr)))).length =
      (rows.filter (fun r => 2 ≤ r.length)).length := by
  have hbody : getHistoricalDataLibBody (.ok (mkDatasets (rows.map .arr))) =
      Except.bind (exMapM mkLibBar (rows.map .arr))
        (fun rows' => Except.ok ((rows'.filterMap id).reverse)) := rfl
  have hres : getHistoricalDataLib (.ok (mkDatasets (rows.map .arr))) =
      ((rows.map fun r =>
        if 2 ≤ r.length then some (libBarOf r) else none).filterMap id).reverse := by
    unfold getHistoricalDataLib
    rw [hbody, exMapM_mkLibBar rows]
    rfl
  rw [hres]
  rw [List.length_reverse, List.filterMap_map]
  simpa using length_filterMap_ite (fun r : List JsVal => 2 ≤ r.length)
    libBarOf rows

/-- The governor variant keeps every row. -/
theorem govHistorical_keeps_all (rows : List (List JsVal)) :
    (getHistoricalDataGov (.ok (mkDatasets (rows.map .arr)))).length =
      rows.length := by
  have hbody : getHistoricalDataGovBody (.ok (mkDatasets (rows.map .arr))) =
      Except.bind (exMapM mkGovBar (rows.map .arr))
        (fun rows' => Except.ok rows'.reverse) := rfl
  have hres : getHistoricalDataGov (.ok (mkDatasets (rows.map .arr))) =
      (rows.map govBarOf).reverse := by
    unfold getHistoricalDataGov
    rw [hbody, exMapM_mkGovBar rows]
    rfl
  rw [hres]
  simp

/-- C8 (amended): string fields default to the caller-supplied fallback
or the empty string, and `Number`/`parseFloat` coercion yields 0 on
`null` but NaN on `undefined` and on non-numeric strings; only the lib
variant's datasets branch guards its numeric fields with `|| 0` (never
NaN) and drops rows with fewer than 2 entries, while the governor
variant keeps every row. -/
theorem C8_normalization_actual :
    (∀ rows : List (List JsVal),
      (getHistoricalDataLib (.ok (mkDatasets (rows.map .arr)))).length =
        (rows.filter (fun r => 2 ≤ r.length)).length) ∧
    (∀ rows : List (List JsVal),
      (getHistoricalDataGov (.ok (mkDatasets (rows.map .arr)))).length =
        rows.length) ∧
    (∀ jn : JsNum, (jsNumOr0 jn).isNaN = false) ∧
    jsToNumber .null = .num 0 ∧
    jsToNumber .undef = .nan ∧
    (∀ name : String,
      (getStockData name
        (.ok (.obj [("currentPrice", .obj [("NSE", .num 5)])]))).map
        (fun q => q.symbol) = [.str name] ∧
      (getStockData name
        (.ok (.obj [("currentPrice", .obj [("NSE", .num 5)])]))).map
        (fun q => q.name) = [.str name]) := by
  refine ⟨libHistorical_drops_short, govHistorical_keeps_all, ?_, rfl, rfl, ?_⟩
  · intro jn
    cases jn with
    | nan => rfl
    | num q => by_cases h : q = 0 <;> simp [jsNumOr0, h, JsNum.isNaN]
  · intro name
    constructor <;> rfl

/-- Witness for C3 at a concrete input: two queued items drained from a
fresh governor. -/
theorem C3_fifo_one_at_a_time_spacing_witness :
    ((processQueue (fun _ => (100, .ok .null))
      { GovState.init with
          requestQueue := [⟨0, "/a", [], "/a?"⟩, ⟨1, "/b", [], "/b?"⟩] }
      50000).2.2.map (fun r => r.rid) = [0, 1]) ∧
    List.Chain' (fun a b =>
      a.finish ≤ b.start ∧ a.start + MIN_REQUEST_INTERVAL ≤ b.start)
      (processQueue (fun _ => (100, .ok .null))
        { GovState.init with
            requestQueue := [⟨0, "/a", [], "/a?"⟩, ⟨1, "/b", [], "/b?"⟩] }
        50000).2.2 ∧
    (∀ r ∈ (processQueue (fun _ => (100, .ok .null))
        { GovState.init with
            requestQueue := [⟨0, "/a", [], "/a?"⟩, ⟨1, "/b", [], "/b?"⟩] }
        50000).2.2, r.start ≤ r.finish) := by
  have h := C3_fifo_one_at_a_time_spacing (fun _ => (100, .ok .null))
    { GovState.init with
        requestQueue := [⟨0, "/a", [], "/a?"⟩, ⟨1, "/b", [], "/b?"⟩] }
    50000
  exact ⟨h.1.trans rfl, h.2.1, h.2.2⟩
